import Mathlib

/-
Verification of the Werewolf game orchestration engine
(shallow embedding of src/game_optimized_2.py).

Conventions of the embedding:
* Python strings are Lean `String`; the Python substring test `needle in hay`
  is `containsStr hay needle`, implemented by structural recursion on the
  character lists; `str.lower()` is `lowerStr`.
* Python floats are modelled as rationals (`ℚ`): every suspicion constant in
  the source (0.25, -0.2, 0.5 and the clamp bounds 0.0, 1.0) is an exact
  rational, and the claims under study depend only on exact arithmetic,
  order and clamping, never on binary rounding.
* `Player.knowledge` is a Python list of 2-tuples whose second component is
  either a string (a Seer fact) or a float (a suspicion score); it is
  modelled as `List (String × BVal)` with `BVal = str _ | flt _`, which also
  captures the source's `isinstance(level, float)` dispatch.
* Object mutation through a reference found with `next(...)` (always the
  first matching element) is modelled by `modify_first`.
* Calls into the decision oracle (`call_api`) and the random source
  (`random.shuffle`, `random.choice`) are injected as parameters: oracle
  answers as strings, a shuffle as an explicitly given order, and
  `random.choice xs` as `xs.get? (k % xs.length)` for an arbitrary draw `k`,
  so that every theorem quantifies over all possible oracle/random
  behaviours.
-/

namespace WerewolfAI

/-- Python `needle` is a prefix of `hay` on character lists. -/
def isPrefixChars : List Char → List Char → Bool
  | [], _ => true
  | _ :: _, [] => false
  | a :: as, b :: bs => a == b && isPrefixChars as bs

/-- Occurrence of a character list inside another (empty needle occurs everywhere). -/
def occursChars (needle : List Char) : List Char → Bool
  | [] => needle.isEmpty
  | c :: rest => isPrefixChars needle (c :: rest) || occursChars needle rest

/-- Python `needle in hay` substring test. -/
def containsStr (hay needle : String) : Bool :=
  occursChars needle.data hay.data

/-- Python `s.lower()`. -/
def lowerStr (s : String) : String :=
  ⟨s.data.map Char.toLower⟩

/-- The second component of a `knowledge` tuple: a Seer fact string or a
suspicion score float (source keeps both in one heterogeneous list). -/
inductive BVal where
  | str (s : String)
  | flt (q : ℚ)
deriving DecidableEq, Repr

/-- One entry of `player.suspicion_changes`
(source: the dict appended at line 933). -/
structure SChange where
  round : Nat
  discussion_round : Nat
  target : String
  new_suspicion : ℚ
deriving DecidableEq, Repr

/-- `class Player` (source lines 51-67): identity, role, mutable game state. -/
structure Player where
  name : String
  role : String
  is_alive : Bool := true
  last_protected : Option String := none
  knowledge : List (String × BVal) := []
  suspicion_changes : List SChange := []
  statements : List String := []
  votes : List String := []
  voted_for : List String := []
  activity_level : ℚ := 0
  role_claims : List (String × Nat × Nat) := []
deriving DecidableEq, Repr

/-- The `self.metrics` dictionary (source lines 165-181). -/
structure Metrics where
  rounds_played : Nat := 0
  winner : Option String := none
  seer_correct_accusations : Nat := 0
  total_seer_investigations : Nat := 0
  votes_against_werewolves : Nat := 0
  total_votes : Nat := 0
  seer_reveals : Nat := 0
  suspicion_changes : Nat := 0
  vote_discussion_alignment : Nat := 0
  total_discussion_statements : Nat := 0
  statement_variety : Nat := 0
  werewolf_deceptions : Nat := 0
  medic_successful_protections : Nat := 0
  werewolf_team_coordination : Nat := 0
  village_consensus_rate : ℚ := 0
deriving DecidableEq, Repr

/-- The mutable state of `WerewolfGame` that the phase logic touches:
the ordered player collection, round counter, history log, publicly
claimed roles and metric counters. -/
structure GameState where
  players : List Player
  round : Nat := 0
  game_history : List String := []
  confirmed_roles : List (String × String) := []
  metrics : Metrics := {}
deriving DecidableEq, Repr

/-- `WerewolfGame.get_alive_players` (source lines 187-188): a freshly built
list of the alive players, in master order. -/
def get_alive_players (players : List Player) : List Player :=
  players.filter (fun p => p.is_alive)

/-- `WerewolfGame.get_werewolves` (source lines 190-191). -/
def get_werewolves (players : List Player) : List Player :=
  players.filter (fun p => p.role == "Werewolf" && p.is_alive)

/-- `WerewolfGame.get_villagers` (source lines 193-194): alive non-Werewolves. -/
def get_villagers (players : List Player) : List Player :=
  players.filter (fun p => p.role != "Werewolf" && p.is_alive)

/-- `WerewolfGame.check_win_condition` (source lines 196-203). -/
def check_win_condition (players : List Player) : Option String :=
  let werewolves := (get_werewolves players).length
  let villagers := (get_villagers players).length
  if werewolves = 0 then some "Villagers win!"
  else if werewolves ≥ villagers then some "Werewolves win!"
  else none

/-- `WerewolfGame.__init__`, non-randomized path (source lines 134, 147-149):
drop Moderator entries, build one `Player` per remaining roster entry.
The constructor performs no roster validation and has no failure path. -/
def init_players (roster : List (String × String)) : List Player :=
  (roster.filter (fun p => p.2 ≠ "Moderator")).map
    (fun p => { name := p.1, role := p.2 })

/-- `WerewolfGame.__init__`, randomized path (source lines 137-146): names in
roster order, paired with an externally shuffled role list. Still builds one
`Player` per non-Moderator roster entry and has no failure path. -/
def init_players_shuffled (roster : List (String × String))
    (shuffled_roles : List String) : List Player :=
  let player_list := roster.filter (fun p => p.2 ≠ "Moderator")
  (player_list.map (fun p => p.1)).zipWith
    (fun n r => { name := n, role := r : Player }) shuffled_roles

/-- Source line 913: `next((level for name, level in player.knowledge
if name == p.name and isinstance(level, float)), 0.0)` — the first float
entry recorded for `pname`, defaulting to 0. -/
def first_float_level (knowledge : List (String × BVal)) (pname : String) : ℚ :=
  match knowledge.find? (fun e =>
      e.1 == pname && (match e.2 with | .flt _ => true | .str _ => false)) with
  | some (_, .flt q) => q
  | _ => 0

/-- The suspicion delta of the day-phase update (source lines 916-926):
the accusation delta +0.25 and the defense delta -0.2 apply only when the
target's name occurs in the lowercased statement; a speaking Seer holding a
recorded `"Werewolf"` entry matching the target overrides the delta to 0.5
(the source's tuple membership test `p.name in res` checks both tuple
components). -/
def suspicion_delta (player : Player) (statement : String) (pname : String) : ℚ :=
  let low := lowerStr statement
  let change0 : ℚ :=
    if containsStr low "suspect" || containsStr low "accuse" then
      (if containsStr low pname then 1/4 else 0)
    else if containsStr low "innocent" || containsStr low "defend" then
      (if containsStr low pname then -(1/5) else 0)
    else 0
  if player.role == "Seer" && player.knowledge.any (fun res =>
      (res.1 == pname || res.2 == BVal.str pname) && res.2 == BVal.str "Werewolf")
    then 1/2 else change0

/-- Day-phase suspicion update for one speaker/statement/mentioned-target
triple (source lines 913-934).  Returns the updated speaker and whether a
`SuspicionChangeEvent` was recorded (which also drives the
`suspicion_changes` metric counter).  The sum of the prior score and the
delta is clamped to [0,1]; on an actual change ALL knowledge entries for
the target name are dropped (`filter`) before the new float score is
appended, and one change event is appended. -/
def update_suspicion (round discussion_round : Nat) (player : Player)
    (statement : String) (pname : String) : Player × Bool :=
  let existing_suspicion := first_float_level player.knowledge pname
  let new_suspicion :=
    max 0 (min 1 (existing_suspicion + suspicion_delta player statement pname))
  if existing_suspicion ≠ new_suspicion then
    ({ player with
        knowledge := (player.knowledge.filter (fun e => e.1 != pname))
          ++ [(pname, BVal.flt new_suspicion)],
        suspicion_changes := player.suspicion_changes ++
          [{ round := round, discussion_round := discussion_round,
             target := pname, new_suspicion := new_suspicion }] },
      true)
  else (player, false)

/-- Mutation of the first player satisfying `pred` (Python finds an object
with `next(p for p in ... if pred)` and mutates it in place; only that one
object changes). -/
def modify_first (pred : Player → Bool) (f : Player → Player) :
    List Player → List Player
  | [] => []
  | p :: ps => if pred p then f p :: ps else p :: modify_first pred f ps

/-- `victim.is_alive = False` where `victim` was obtained with
`next((p for p in alive_players if p.name == v), ...)`: the first alive
player carrying that name is marked dead. -/
def mark_dead_first (players : List Player) (v : String) : List Player :=
  modify_first (fun p => p.is_alive && p.name == v)
    (fun p => { p with is_alive := false }) players

/-- Number of alive players carrying a given name. -/
def alive_named (players : List Player) (n : String) : Nat :=
  (players.filter (fun p => p.is_alive && p.name == n)).length

/-- Number of alive players. -/
def alive_count (players : List Player) : Nat :=
  (get_alive_players players).length

/-- Number of dead players. -/
def dead_count (players : List Player) : Nat :=
  (players.filter (fun p => !p.is_alive)).length

/-- Night-action resolution (source lines 777-787): if the Werewolves chose
a victim and the Medic protected that same player (`prot` is the name the
Medic protected, the source's `protected` local), nobody dies and the
successful-protection counter increments; otherwise the chosen victim (if
any) is marked dead; with no victim nothing changes but the history line. -/
def resolve_night (st : GameState) (victim prot : Option String) :
    GameState :=
  match victim, prot with
  | some v, some pr =>
    if v = pr then
      { st with
          game_history := st.game_history ++
            ["Night " ++ toString st.round ++ ": No one was killed (Medic saved someone)"],
          metrics := { st.metrics with
            medic_successful_protections :=
              st.metrics.medic_successful_protections + 1 } }
    else
      { st with
          players := mark_dead_first st.players v,
          game_history := st.game_history ++
            ["Night " ++ toString st.round ++ ": " ++ v ++ " was killed"] }
  | some v, none =>
    { st with
        players := mark_dead_first st.players v,
        game_history := st.game_history ++
          ["Night " ++ toString st.round ++ ": " ++ v ++ " was killed"] }
  | none, _ =>
    { st with
        game_history := st.game_history ++
          ["Night " ++ toString st.round ++ ": No one was killed"] }

/-- The metrics summary written by `save_metrics` (source lines 1104-1136). -/
structure MetricsSummary where
  rounds_played : Nat
  winner : Option String
  seer_accuracy : ℚ
  seer_reveal_rate : ℚ
  total_investigations : Nat
  deception_rate : ℚ
  team_coordination : ℚ
  successful_protections : Nat
  voting_accuracy : ℚ
  consensus_rate : ℚ
  suspicion_change_rate : ℚ
  vote_discussion_alignment : ℚ
  statement_variety_rate : ℚ
  total_statements : Nat
deriving DecidableEq, Repr

/-- `WerewolfGame.save_metrics` (source lines 1104-1136): every ratio is
written with the guard `numerator / denominator if denominator > 0 else 0`.
(As a total Lean function this can never raise; the guard — not the
division-by-zero convention of `ℚ` — is what makes the zero-denominator
value 0, exactly as in the Python source.) -/
def save_metrics (m : Metrics) : MetricsSummary :=
  { rounds_played := m.rounds_played,
    winner := m.winner,
    seer_accuracy := if m.total_seer_investigations > 0 then
        (m.seer_correct_accusations : ℚ) / (m.total_seer_investigations : ℚ)
      else 0,
    seer_reveal_rate := if m.rounds_played > 0 then
        (m.seer_reveals : ℚ) / (m.rounds_played : ℚ) else 0,
    total_investigations := m.total_seer_investigations,
    deception_rate := if m.total_discussion_statements > 0 then
        (m.werewolf_deceptions : ℚ) / (m.total_discussion_statements : ℚ) else 0,
    team_coordination := if m.rounds_played > 0 then
        (m.werewolf_team_coordination : ℚ) / (m.rounds_played : ℚ) else 0,
    successful_protections := m.medic_successful_protections,
    voting_accuracy := if m.total_votes > 0 then
        (m.votes_against_werewolves : ℚ) / (m.total_votes : ℚ) else 0,
    consensus_rate := if m.rounds_played > 0 then
        m.village_consensus_rate / (m.rounds_played : ℚ) else 0,
    suspicion_change_rate := if m.total_discussion_statements > 0 then
        (m.suspicion_changes : ℚ) / (m.total_discussion_statements : ℚ) else 0,
    vote_discussion_alignment := if m.total_votes > 0 then
        (m.vote_discussion_alignment : ℚ) / (m.total_votes : ℚ) else 0,
    statement_variety_rate := if m.total_discussion_statements > 0 then
        (m.statement_variety : ℚ) / (m.total_discussion_statements : ℚ) else 0,
    total_statements := m.total_discussion_statements }

/-- Vote validation (source line 1040): any response that is not "Pass" and
not a currently-valid alive-non-self name is recorded as "Pass", silently
and with no retry. -/
def coerce_vote (vote : String) (valid_targets : List String) : String :=
  if vote == "Pass" || !valid_targets.contains vote then "Pass" else vote

/-- One step of the tally dict update
`vote_counts[vote] = vote_counts.get(vote, 0) + 1` (source line 1078),
keeping Python's dict insertion order. -/
def bump_vote (counts : List (String × Nat)) (v : String) : List (String × Nat) :=
  if counts.any (fun e => e.1 == v) then
    counts.map (fun e => if e.1 == v then (e.1, e.2 + 1) else e)
  else counts ++ [(v, 1)]

/-- The tally loop (source lines 1075-1078): count non-"Pass" votes per
target name. -/
def tally_votes (votes : List String) : List (String × Nat) :=
  votes.foldl (fun counts v => if v == "Pass" then counts else bump_vote counts v) []

/-- `max(vote_counts.values())` (source line 1082). -/
def max_votes (counts : List (String × Nat)) : Nat :=
  (counts.map (fun e => e.2)).foldl max 0

/-- `[name for name, count in vote_counts.items() if count == max_votes]`
(source line 1087). -/
def tie_candidates (counts : List (String × Nat)) : List String :=
  (counts.filter (fun e => e.2 == max_votes counts)).map (fun e => e.1)

/-- `random.choice(eliminated_candidates)` (source line 1088), the draw
injected as an arbitrary index `k` reduced modulo the candidate count;
`none` exactly when no votes were cast. -/
def choose_eliminated (counts : List (String × Nat)) (k : Nat) : Option String :=
  if counts.isEmpty then none
  else (tie_candidates counts).get? (k % (tie_candidates counts).length)

/-- The consensus-rate accrual `max_votes / len(alive_players)` added to
`village_consensus_rate` when any votes were cast (source lines 1081-1084). -/
def consensus_metrics (m : Metrics) (counts : List (String × Nat))
    (alive_names : List String) : Metrics :=
  { m with village_consensus_rate :=
      m.village_consensus_rate + (max_votes counts : ℚ) / (alive_names.length : ℚ) }

/-- The Seer-correct-accusation increment (source lines 1095-1099): 1 when
the eliminated player is a Werewolf, a Seer is found in the (day-start)
alive set, and that Seer's recorded vote names the eliminated player. -/
def seer_vote_bonus (st : GameState) (votes : List (String × String))
    (eliminated : Player) (eliminated_name : String) : Nat :=
  if eliminated.role == "Werewolf" then
    match st.players.find? (fun p => p.is_alive && p.role == "Seer") with
    | some seer =>
      if (votes.find? (fun e => e.1 == seer.name)).map (fun e => e.2)
          == some eliminated_name then 1 else 0
    | none => 0
  else 0

/-- Vote tally, consensus-rate update, tie-break and elimination (source
lines 1074-1099): with no non-Pass votes nothing happens; otherwise the
village-consensus metric accrues max/alive, one name is drawn among the
max-vote candidates, the first alive player of that name is marked dead,
and the Seer-correct-accusation counter rises by `seer_vote_bonus`. -/
def tally_and_eliminate (st : GameState) (alive_names : List String)
    (votes : List (String × String)) (k : Nat) : GameState :=
  if (tally_votes (votes.map (fun e => e.2))).isEmpty then st
  else
    match (tie_candidates (tally_votes (votes.map (fun e => e.2)))).get?
        (k % (tie_candidates (tally_votes (votes.map (fun e => e.2)))).length) with
    | none => { st with metrics :=
        consensus_metrics st.metrics (tally_votes (votes.map (fun e => e.2))) alive_names }
    | some eliminated_name =>
      match st.players.find? (fun p => p.is_alive && p.name == eliminated_name) with
      | none => { st with metrics :=
          consensus_metrics st.metrics (tally_votes (votes.map (fun e => e.2))) alive_names }
      | some eliminated =>
        { st with
            players := mark_dead_first st.players eliminated_name,
            game_history := st.game_history ++
              ["Day " ++ toString st.round ++ ": " ++ eliminated_name
                ++ " was eliminated with "
                ++ toString (max_votes (tally_votes (votes.map (fun e => e.2))))
                ++ " votes out of " ++ toString alive_names.length ++ " voters"],
            metrics :=
              { consensus_metrics st.metrics (tally_votes (votes.map (fun e => e.2)))
                  alive_names with
                  seer_correct_accusations :=
                    (consensus_metrics st.metrics (tally_votes (votes.map (fun e => e.2)))
                      alive_names).seer_correct_accusations
                      + seer_vote_bonus st votes eliminated eliminated_name } }

/-- Defensive-behaviour part of the Seer's suspicion scoring (source lines
681-687): +0.2 for every (statement, other) pair where the statement
mentions `other`, contains "defend" lowercased, and some third target's
statement LIST contains `other`'s name and the word "suspect" as whole
elements (the source tests membership in the list `p.statements`, not in
the statement text — embedded as written). -/
def seer_defense_score (valid_targets : List Player) (player : Player) : ℚ :=
  player.statements.foldl (fun acc stmt =>
    valid_targets.foldl (fun acc2 other =>
      if containsStr stmt other.name && containsStr (lowerStr stmt) "defend" &&
          ((valid_targets.filter (fun p => p != player && p != other)).map
            (fun p => p.statements)).any
            (fun s => s.contains other.name && s.contains "suspect")
      then acc2 + 1/5 else acc2) acc) 0

/-- Voting-pattern part of the Seer's suspicion scoring (source lines
689-693): +0.1 per past vote that targeted a non-Werewolf (looked up over
the full player collection). -/
def seer_vote_score (all_players : List Player) (player : Player) : ℚ :=
  player.votes.foldl (fun acc vote =>
    match all_players.find? (fun p => p.name == vote) with
    | some voted_player =>
      if voted_player.role != "Werewolf" then acc + 1/10 else acc
    | none => acc) 0

/-- `suspicious_players` (source lines 677-697): uninvestigated valid
targets with a positive combined score. -/
def seer_suspicious_players (all_players : List Player)
    (valid_targets : List Player) (investigated : List String) :
    List (String × ℚ) :=
  valid_targets.filterMap (fun player =>
    if investigated.contains player.name then none
    else
      if 0 < seer_defense_score valid_targets player
          + seer_vote_score all_players player then
        some (player.name,
          seer_defense_score valid_targets player
            + seer_vote_score all_players player)
      else none)

/-- One insertion step of a stable descending sort: the new element goes
after every present element whose score is at least as large. -/
def insert_desc (x : String × ℚ) : List (String × ℚ) → List (String × ℚ)
  | [] => [x]
  | y :: ys => if y.2 < x.2 then x :: y :: ys else y :: insert_desc x ys

/-- Python's stable `list.sort(key=lambda x: x[1], reverse=True)`
(source line 698). -/
def sort_desc (l : List (String × ℚ)) : List (String × ℚ) :=
  l.foldl (fun acc x => insert_desc x acc) []

/-- `valid_targets` of the Seer investigation (source line 669): alive
players other than the Seer — previously investigated players are NOT
excluded here. -/
def seer_valid_targets (seer : Player) (alive_players : List Player) :
    List Player :=
  alive_players.filter (fun p => p.name != seer.name)

/-- `uninvestigated` (source line 674): names of valid targets not yet in
the Seer's knowledge. -/
def seer_uninvestigated (seer : Player) (alive_players : List Player) :
    List String :=
  ((seer_valid_targets seer alive_players).filter
    (fun p => !(seer.knowledge.map (fun e => e.1)).contains p.name)).map
    (fun p => p.name)

/-- The fallback when the oracle's reply names no valid target (source
lines 718-725): prefer the first uninvestigated valid target, else the
top-scored suspicious player, else a uniform random valid target
(`random.choice` injected as index `k`). -/
def seer_fallback (all_players : List Player) (seer : Player)
    (alive_players : List Player) (k : Nat) : Option Player :=
  if !(seer_uninvestigated seer alive_players).isEmpty then
    (seer_valid_targets seer alive_players).find?
      (fun p => (seer_uninvestigated seer alive_players).contains p.name)
  else
    match (sort_desc (seer_suspicious_players all_players
        (seer_valid_targets seer alive_players)
        (seer.knowledge.map (fun e => e.1)))).head? with
    | some s => (seer_valid_targets seer alive_players).find?
        (fun p => p.name == s.1)
    | none => (seer_valid_targets seer alive_players).get?
        (k % (seer_valid_targets seer alive_players).length)

/-- The Seer's investigation target (source lines 666-725): `none` when no
valid target exists; otherwise the oracle's reply when it names a valid
target (investigated or not), else the fallback. -/
def seer_pick_target (all_players : List Player) (seer : Player)
    (alive_players : List Player) (oracle : String) (k : Nat) :
    Option Player :=
  if (seer_valid_targets seer alive_players).isEmpty then none
  else
    match (seer_valid_targets seer alive_players).find?
        (fun p => p.name == oracle) with
    | some t => some t
    | none => seer_fallback all_players seer alive_players k

/-- The inner suspicion-update loop over the alive players mentioned in a
statement (source lines 911-934), threading the speaker and the number of
recorded change events. -/
def suspicion_fold (r dround : Nat) (stmt : String) (targets : List String)
    (start : Player × Nat) : Player × Nat :=
  targets.foldl (fun acc n =>
    ((update_suspicion r dround acc.1 stmt n).1,
      acc.2 + (if (update_suspicion r dround acc.1 stmt n).2 then 1 else 0)))
    start

/-- Per-speaker bookkeeping of one day-phase statement (source lines
889-944): append the statement, record role claims, run the suspicion
update over every other alive player named in the statement, and report
(updated speaker, change events, statement-novelty flag). -/
def speak_update (r dround : Nat) (alive_names : List String) (stmt : String)
    (p : Player) : Player × Nat × Bool :=
  let targets := alive_names.filter (fun n => n != p.name && containsStr stmt n)
  let p1 := { p with
      statements := p.statements ++ ["Round " ++ toString dround ++ ": " ++ stmt],
      role_claims :=
        if containsStr stmt "I am the Seer" || containsStr stmt "as the Seer" then
          p.role_claims ++ [("Seer", r, dround)]
        else if containsStr stmt "I am the Medic" || containsStr stmt "as the Medic" then
          p.role_claims ++ [("Medic", r, dround)]
        else p.role_claims }
  let upd := suspicion_fold r dround stmt targets (p1, 0)
  let past_targets := p.statements.foldl
      (fun acc past => acc ++ alive_names.filter
        (fun n => containsStr past n && n != p.name)) []
  (upd.1, upd.2,
    !targets.isEmpty && targets.all (fun tgt => !past_targets.contains tgt))

/-- `self.confirmed_roles[name] = value` on the assoc-list model of the
Python dict (source lines 897, 900). -/
def set_role (roles : List (String × String)) (n v : String) :
    List (String × String) :=
  if roles.any (fun e => e.1 == n) then
    roles.map (fun e => if e.1 == n then (n, v) else e)
  else roles ++ [(n, v)]

/-- State effect of one speaker's statement in a discussion round (source
lines 889-944): the speaker (first alive player of that name) is updated in
place; the claimed-role registry and the discussion metrics counters are
maintained. -/
def process_statement (dround : Nat) (alive_names : List String)
    (sname stmt : String) (st : GameState) : GameState :=
  match st.players.find? (fun p => p.is_alive && p.name == sname) with
  | none => st
  | some speaker =>
    { st with
        players := modify_first (fun p => p.is_alive && p.name == sname)
          (fun p => (speak_update st.round dround alive_names stmt p).1)
          st.players,
        confirmed_roles :=
          if containsStr stmt "I am the Seer" || containsStr stmt "as the Seer" then
            set_role st.confirmed_roles sname "Claimed Seer"
          else if containsStr stmt "I am the Medic"
              || containsStr stmt "as the Medic" then
            set_role st.confirmed_roles sname "Claimed Medic"
          else st.confirmed_roles,
        metrics := { st.metrics with
          total_discussion_statements :=
            st.metrics.total_discussion_statements + 1,
          seer_reveals := st.metrics.seer_reveals +
            (if speaker.role == "Seer" && containsStr stmt "I am the Seer"
             then 1 else 0),
          werewolf_deceptions := st.metrics.werewolf_deceptions +
            (if speaker.role == "Werewolf" &&
                (get_villagers st.players).any (fun q => containsStr stmt q.name)
             then 1 else 0),
          suspicion_changes := st.metrics.suspicion_changes +
            (speak_update st.round dround alive_names stmt speaker).2.1,
          statement_variety := st.metrics.statement_variety +
            (if (speak_update st.round dround alive_names stmt speaker).2.2
             then 1 else 0) } }

/-- One discussion round (source lines 802-944): speakers in the given
(shuffled) order, each statement injected from the oracle. -/
def discussion_round_run (dround : Nat) (alive_names : List String)
    (speeches : List (String × String)) (st : GameState) : GameState :=
  speeches.foldl (fun s sp => process_statement dround alive_names sp.1 sp.2 s) st

/-- All discussion rounds of one day (source line 802), numbered from 1. -/
def day_discussions (alive_names : List String)
    (speeches : List (List (String × String))) (st : GameState) : GameState :=
  (speeches.enum).foldl
    (fun s pr => discussion_round_run (pr.1 + 1) alive_names pr.2 s) st

/-- One voter's vote (source lines 956-1068): an invalid or "Pass" response
is recorded as "Pass"; a valid response is recorded, appended to the
voter's vote history and the target's voted-for history, and the vote
metrics (total, anti-Werewolf, discussion alignment, Werewolf
team-coordination) are updated. -/
def cast_vote (alive_names : List String) (vname response : String)
    (acc : GameState × List (String × String)) :
    GameState × List (String × String) :=
  if response == "Pass"
      || !(alive_names.filter (fun n => n != vname)).contains response then
    (acc.1, acc.2 ++ [(vname, "Pass")])
  else
    ({ acc.1 with
        players :=
          modify_first (fun p => p.is_alive && p.name == response)
            (fun p => { p with voted_for := p.voted_for ++ [vname] })
            (modify_first (fun p => p.is_alive && p.name == vname)
              (fun p => { p with votes := p.votes ++ [response] })
              acc.1.players),
        metrics := { acc.1.metrics with
          total_votes := acc.1.metrics.total_votes + 1,
          votes_against_werewolves := acc.1.metrics.votes_against_werewolves +
            (match acc.1.players.find? (fun p => p.is_alive && p.name == response) with
             | some tgt => if tgt.role == "Werewolf" then 1 else 0
             | none => 0),
          vote_discussion_alignment := acc.1.metrics.vote_discussion_alignment +
            (match acc.1.players.find? (fun p => p.is_alive && p.name == vname) with
             | some voter =>
               if ((voter.suspicion_changes.filter
                   (fun s => s.round == acc.1.round)).map (fun s => s.target)).contains
                   response then 1 else 0
             | none => 0),
          werewolf_team_coordination := acc.1.metrics.werewolf_team_coordination +
            (match acc.1.players.find? (fun p => p.is_alive && p.name == vname) with
             | some voter =>
               if voter.role == "Werewolf"
                   && (get_werewolves acc.1.players).length > 1 then
                 if !((get_werewolves acc.1.players).filterMap (fun w =>
                       if w.name != vname then
                         (acc.2.find? (fun e => e.1 == w.name)).map (fun e => e.2)
                       else none)).isEmpty
                     && ((get_werewolves acc.1.players).filterMap (fun w =>
                       if w.name != vname then
                         (acc.2.find? (fun e => e.1 == w.name)).map (fun e => e.2)
                       else none)).all (fun v => v == response) then 1 else 0
               else 0
             | none => 0) } },
      acc.2 ++ [(vname, response)])

/-- The full voting loop (source lines 954-1072) in the given voter order,
returning the state and the recorded vote list. -/
def day_voting (alive_names : List String)
    (vote_order : List (String × String)) (st : GameState) :
    GameState × List (String × String) :=
  vote_order.foldl (fun acc nv => cast_vote alive_names nv.1 nv.2 acc) (st, [])

/-- The whole day phase (source lines 792-1102): discussion rounds over the
day-start alive list (speaking orders and statements injected), then the
voting loop, then tally and elimination.  The shuffled speaking order and
the voting order act on freshly built name lists, never on the master
player collection. -/
def day_phase (st : GameState) (speeches : List (List (String × String)))
    (vote_order : List (String × String)) (k : Nat) : GameState :=
  tally_and_eliminate
    (day_voting ((get_alive_players st.players).map (fun p => p.name)) vote_order
      (day_discussions ((get_alive_players st.players).map (fun p => p.name))
        speeches st)).1
    ((get_alive_players st.players).map (fun p => p.name))
    (day_voting ((get_alive_players st.players).map (fun p => p.name)) vote_order
      (day_discussions ((get_alive_players st.players).map (fun p => p.name))
        speeches st)).2
    k

/-- Activity-level refresh at the start of the night (source lines
612-619): every alive player's activity level is recomputed (the value,
derived from the discussion logs, is injected). -/
def update_activity (activity : String → ℚ) (players : List Player) :
    List Player :=
  players.map (fun p =>
    if p.is_alive then { p with activity_level := activity p.name } else p)

/-- The Seer investigation step of the night (source lines 666-729): when
an alive Seer and a target exist, the ground-truth fact is appended to the
Seer's knowledge and the investigation counter rises. -/
def record_seer_investigation (st : GameState) (oracle : String) (k : Nat) :
    GameState :=
  match st.players.find? (fun p => p.is_alive && p.role == "Seer") with
  | none => st
  | some seer =>
    match seer_pick_target st.players seer (get_alive_players st.players)
        oracle k with
    | none => st
    | some target =>
      { st with
          players := modify_first (fun p => p.is_alive && p.role == "Seer")
            (fun p => { p with knowledge := p.knowledge ++
              [(target.name, BVal.str
                (if target.role == "Werewolf" then "Werewolf"
                 else "Not a Werewolf"))] })
            st.players,
          metrics := { st.metrics with
            total_seer_investigations :=
              st.metrics.total_seer_investigations + 1 } }

/-- The Medic protection step of the night (source lines 733-773): when an
alive Medic exists and a protection target was chosen (oracle or fallback,
injected), `last_protected` is updated. -/
def record_medic_protection (st : GameState) (prot : Option String) :
    GameState :=
  match st.players.find? (fun p => p.is_alive && p.role == "Medic") with
  | none => st
  | some _ =>
    match prot with
    | none => st
    | some pr =>
      { st with
          players := modify_first (fun p => p.is_alive && p.role == "Medic")
            (fun p => { p with last_protected := some pr }) st.players }

/-- The whole night phase (source lines 603-790): round increment, activity
refresh, Seer investigation, Medic protection bookkeeping, and the
kill/save resolution.  The Werewolf victim and Medic target (oracle plus
fallback choices) are injected as the names the selection produced. -/
def night_phase (st : GameState) (activity : String → ℚ)
    (victim prot : Option String) (seer_oracle : String) (k : Nat) :
    GameState :=
  resolve_night
    (record_medic_protection
      (record_seer_investigation
        { st with
            round := st.round + 1,
            players := update_activity activity st.players,
            metrics := { st.metrics with rounds_played := st.round + 1 } }
        seer_oracle k)
      prot)
    victim prot

/-- One phase of the game loop with all oracle/random inputs attached. -/
inductive PhaseAction where
  | night (activity : String → ℚ) (victim prot : Option String)
      (seer_oracle : String) (k : Nat)
  | day (speeches : List (List (String × String)))
      (vote_order : List (String × String)) (k : Nat)

/-- Apply one phase. -/
def apply_phase : PhaseAction → GameState → GameState
  | .night a v pr o k, st => night_phase st a v pr o k
  | .day sp vo k, st => day_phase st sp vo k

/-- Run a sequence of phases (the `run` loop, source lines 1138-1158). -/
def run_phases (acts : List PhaseAction) (st : GameState) : GameState :=
  acts.foldl (fun s a => apply_phase a s) st

/-- The (name, role) projection of the player collection: identity and role
assignments in master order. -/
def roster (players : List Player) : List (String × String) :=
  players.map (fun p => (p.name, p.role))

/-- Whether a knowledge value is an in-range suspicion score
(Seer fact strings are unconstrained). -/
def bval_in_range : BVal → Bool
  | .str _ => true
  | .flt q => decide ((0:ℚ) ≤ q) && decide (q ≤ 1)

/-- All float scores in a knowledge list lie in [0,1]. -/
def scores_in_range (knowledge : List (String × BVal)) : Bool :=
  knowledge.all (fun e => bval_in_range e.2)

end WerewolfAI

namespace WerewolfAI

/-- C2: `check_win_condition` follows the rule `W=0 → Villagers win;
W ≥ V → Werewolves win; otherwise no winner`, and the three outcomes are
mutually exclusive and exhaustive: each outcome holds exactly on its
characterizing arithmetic condition on the alive-Werewolf count W and
alive-non-Werewolf count V, and every state yields one of the three. -/
theorem check_win_condition_trichotomy (players : List Player) :
    (check_win_condition players = some "Villagers win!"
        ↔ (get_werewolves players).length = 0)
    ∧ (check_win_condition players = some "Werewolves win!"
        ↔ ((get_werewolves players).length ≠ 0
            ∧ (get_villagers players).length ≤ (get_werewolves players).length))
    ∧ (check_win_condition players = none
        ↔ ((get_werewolves players).length ≠ 0
            ∧ (get_werewolves players).length < (get_villagers players).length))
    ∧ (check_win_condition players = some "Villagers win!"
        ∨ check_win_condition players = some "Werewolves win!"
        ∨ check_win_condition players = none) := by
  unfold check_win_condition
  by_cases h0 : (get_werewolves players).length = 0
  · simp [h0]
  · by_cases h1 : (get_werewolves players).length ≥ (get_villagers players).length
    · simp [h0, h1]
    · simp [h0, h1]
      omega

/-- C8 counterexample: a roster with a duplicated player name (and likewise an
empty roster) does NOT make initialization fail — `__init__` has no validation
and no error path, so it builds one `Player` per non-Moderator entry even for
a duplicate-name roster, and yields an empty player list for an empty roster
instead of reporting a configuration error before the game starts. -/
theorem init_accepts_invalid_roster :
    init_players [("Alice", "Werewolf"), ("Alice", "Villager"), ("Moderator", "Moderator")]
      = [{ name := "Alice", role := "Werewolf" }, { name := "Alice", role := "Villager" }]
    ∧ init_players [] = [] := by
  constructor <;> rfl

/-- C8 amended: game initialization never fails; for every roster (valid or
not) it builds exactly one `Player` per non-Moderator roster entry, carrying
that entry's name and role, each player starting alive; the randomized path
likewise builds one `Player` per non-Moderator entry when given the shuffled
role list of the same length. -/
theorem init_players_total (roster : List (String × String))
    (shuffled_roles : List String)
    (hlen : shuffled_roles.length = (roster.filter (fun p => p.2 ≠ "Moderator")).length) :
    (init_players roster).map (fun p => (p.name, p.role))
        = roster.filter (fun p => p.2 ≠ "Moderator")
    ∧ (∀ p ∈ init_players roster, p.is_alive = true)
    ∧ (init_players_shuffled roster shuffled_roles).length
        = (roster.filter (fun p => p.2 ≠ "Moderator")).length := by
  refine ⟨?_, ?_, ?_⟩
  · unfold init_players
    rw [List.map_map]
    have hcomp : ((fun p : Player => (p.name, p.role))
        ∘ (fun p : String × String => ({ name := p.1, role := p.2 } : Player)))
        = fun p => p := by
      funext p
      rfl
    rw [hcomp, List.map_id']
  · intro p hp
    simp only [init_players, List.mem_map] at hp
    obtain ⟨e, -, rfl⟩ := hp
    rfl
  · simp [init_players_shuffled, hlen]

/-- C8 witness: the amended statement applied to a concrete duplicate-name
roster: both duplicate entries become players, every player starts alive. -/
theorem init_players_total_witness :
    (init_players [("Alice", "Werewolf"), ("Alice", "Villager"), ("Moderator", "Moderator")]).map
        (fun p => (p.name, p.role))
      = [("Alice", "Werewolf"), ("Alice", "Villager")] :=
  (init_players_total
    [("Alice", "Werewolf"), ("Alice", "Villager"), ("Moderator", "Moderator")]
    ["Werewolf", "Villager"] (by rfl)).1

/-- A Seer who has investigated Bob and recorded the ground-truth fact
`("Bob", "Werewolf")` — the state after a night investigation of a Werewolf. -/
def seer_with_fact : Player :=
  { name := "Player5", role := "Seer",
    knowledge := [("Bob", BVal.str "Werewolf")] }

/-- C1: evaluation of the suspicion-update code at the failing input.  When
the Seer (holding the investigation fact `("Bob", "Werewolf")`) speaks a
day-phase statement mentioning Bob, the heuristic suspicion update fires
(existing float score 0, Seer override delta 0.5), and its
filter-then-append rebuild of `player.knowledge` REMOVES the recorded Seer
fact, replacing it with the float score 0.5: the `(target, "Werewolf")`
entry is no longer present after statement processing. -/
theorem seer_fact_destroyed_by_update :
    ("Bob", BVal.str "Werewolf") ∈ seer_with_fact.knowledge
    ∧ ((update_suspicion 1 1 seer_with_fact "I suspect Bob" "Bob").1).knowledge
        = [("Bob", BVal.flt (1/2))]
    ∧ ("Bob", BVal.str "Werewolf")
        ∉ ((update_suspicion 1 1 seer_with_fact "I suspect Bob" "Bob").1).knowledge := by
  have hex : first_float_level seer_with_fact.knowledge "Bob" = 0 := rfl
  have hdelta : suspicion_delta seer_with_fact "I suspect Bob" "Bob" = 1/2 := rfl
  have hne : (0:ℚ) ≠ max 0 (min 1 (0 + 1/2)) := by norm_num
  have hrun : (update_suspicion 1 1 seer_with_fact "I suspect Bob" "Bob").1.knowledge
      = [("Bob", BVal.flt (max 0 (min 1 (0 + 1/2))))] := by
    simp only [update_suspicion, hex, hdelta]
    rw [if_pos hne]
    rfl
  have hval : max (0:ℚ) (min 1 (0 + 1/2)) = 1/2 := by norm_num
  refine ⟨by simp [seer_with_fact], ?_, ?_⟩
  · rw [hrun, hval]
  · rw [hrun]
    simp

/-- Filtering out entries named `n` and then keeping entries named `n`
yields nothing. -/
theorem filter_ne_then_eq (l : List (String × BVal)) (n : String) :
    (l.filter (fun e => e.1 != n)).filter (fun e => e.1 == n) = [] := by
  induction l with
  | nil => rfl
  | cons a t ih =>
    by_cases h : a.1 = n
    · simp [List.filter_cons, h, ih]
    · simp [List.filter_cons, h, ih]

/-- C6: the suspicion update (a) keeps every stored float score in [0,1]
whenever the scores were in range before — the clamped value is in range
and no other score is touched; (b) when an update fires, the single stored
entry for the target is the new clamped score: it replaced every prior
entry for that target, the recorded value differs from the previously
stored score, and exactly one `SuspicionChangeEvent` is appended; (c) when
the value does not change, the player is left entirely unchanged — so an
event is recorded only when the stored value actually changes. -/
theorem update_suspicion_properties (round dround : Nat) (player : Player)
    (statement pname : String)
    (h : scores_in_range player.knowledge = true) :
    scores_in_range ((update_suspicion round dround player statement pname).1).knowledge = true
    ∧ ((update_suspicion round dround player statement pname).2 = true →
        ∃ q : ℚ,
          ((update_suspicion round dround player statement pname).1).knowledge.filter
              (fun e => e.1 == pname) = [(pname, BVal.flt q)]
          ∧ 0 ≤ q ∧ q ≤ 1
          ∧ q ≠ first_float_level player.knowledge pname
          ∧ ((update_suspicion round dround player statement pname).1).suspicion_changes
              = player.suspicion_changes ++
                  [{ round := round, discussion_round := dround,
                     target := pname, new_suspicion := q }])
    ∧ ((update_suspicion round dround player statement pname).2 = false →
        (update_suspicion round dround player statement pname).1 = player) := by
  simp only [update_suspicion]
  split
  case isTrue hc =>
    refine ⟨?_, ?_, ?_⟩
    · simp only [scores_in_range, List.all_append, List.all_cons, List.all_nil,
        Bool.and_eq_true, and_true]
      constructor
      · rw [List.all_eq_true]
        intro e he
        have he' : e ∈ player.knowledge := List.mem_of_mem_filter he
        exact (List.all_eq_true.mp h) e he'
      · simp only [bval_in_range, Bool.and_eq_true, decide_eq_true_eq]
        exact ⟨le_max_left 0 _, max_le (by norm_num) (min_le_left 1 _)⟩
    · intro _
      refine ⟨max 0 (min 1 (first_float_level player.knowledge pname
          + suspicion_delta player statement pname)), ?_, ?_, ?_, ?_, ?_⟩
      · simp only [List.filter_append, filter_ne_then_eq]
        simp
      · exact le_max_left 0 _
      · exact max_le (by norm_num) (min_le_left 1 _)
      · exact fun hq => hc hq.symm
      · rfl
    · intro hfalse
      simp at hfalse
  case isFalse hc =>
    exact ⟨h, fun htrue => by simp at htrue, fun _ => rfl⟩

/-- C6 witness: a Villager with empty (in-range) knowledge who says
"I suspect bob" about alive player bob ends with all stored scores in
[0,1]. -/
theorem update_suspicion_properties_witness :
    scores_in_range ((update_suspicion 1 1 { name := "Player3", role := "Villager" }
        "I suspect bob" "bob").1).knowledge = true :=
  (update_suspicion_properties 1 1 { name := "Player3", role := "Villager" }
    "I suspect bob" "bob" rfl).1

/-- `alive_named` over a cons cell. -/
theorem alive_named_cons (p : Player) (ps : List Player) (n : String) :
    alive_named (p :: ps) n
      = (if (p.is_alive && p.name == n) = true then 1 else 0) + alive_named ps n := by
  by_cases h : (p.is_alive && p.name == n) = true <;>
    simp [alive_named, List.filter_cons, h] <;> omega

/-- `alive_count` over a cons cell. -/
theorem alive_count_cons (p : Player) (ps : List Player) :
    alive_count (p :: ps) = (if p.is_alive then 1 else 0) + alive_count ps := by
  by_cases h : p.is_alive = true <;>
    simp [alive_count, get_alive_players, List.filter_cons, h] <;> omega

/-- Killing the first alive player named `v` lowers the alive count of that
name by one (truncated subtraction covers the no-such-player case). -/
theorem alive_named_mark_dead_self (ps : List Player) (v : String) :
    alive_named (mark_dead_first ps v) v = alive_named ps v - 1 := by
  induction ps with
  | nil => rfl
  | cons p ps ih =>
    by_cases hp : (p.is_alive && p.name == v) = true
    · rw [mark_dead_first, modify_first, if_pos hp, alive_named_cons,
        alive_named_cons, if_pos hp]
      simp
    · rw [mark_dead_first, modify_first, if_neg hp, alive_named_cons,
        alive_named_cons, if_neg hp]
      rw [mark_dead_first] at ih
      by_cases hz : alive_named ps v = 0 <;> omega

/-- Killing the first alive player named `v` leaves the alive count of every
other name unchanged. -/
theorem alive_named_mark_dead_other (ps : List Player) (v w : String)
    (hw : w ≠ v) :
    alive_named (mark_dead_first ps v) w = alive_named ps w := by
  induction ps with
  | nil => rfl
  | cons p ps ih =>
    by_cases hp : (p.is_alive && p.name == v) = true
    · have hpn : p.name = v := by
        have h2 := ((Bool.and_eq_true _ _).mp hp).2
        exact eq_of_beq h2
      have hnw : (p.name == w) = false := by
        rw [hpn]
        exact beq_eq_false_iff_ne.mpr fun hvw => hw hvw.symm
      rw [mark_dead_first, modify_first, if_pos hp, alive_named_cons,
        alive_named_cons]
      simp [hnw]
    · rw [mark_dead_first, modify_first, if_neg hp, alive_named_cons,
        alive_named_cons]
      rw [mark_dead_first] at ih
      omega

/-- `mark_dead_first` removes at most one player from the alive set. -/
theorem alive_count_mark_dead (ps : List Player) (v : String) :
    alive_count (mark_dead_first ps v) ≤ alive_count ps
    ∧ alive_count ps ≤ alive_count (mark_dead_first ps v) + 1 := by
  induction ps with
  | nil => exact ⟨le_refl _, Nat.le_succ _⟩
  | cons p ps ih =>
    by_cases hp : (p.is_alive && p.name == v) = true
    · have hpa : p.is_alive = true := ((Bool.and_eq_true _ _).mp hp).1
      rw [mark_dead_first, modify_first, if_pos hp, alive_count_cons,
        alive_count_cons, if_pos hpa]
      simp
      omega
    · rw [mark_dead_first, modify_first, if_neg hp, alive_count_cons,
        alive_count_cons]
      rw [mark_dead_first] at ih
      omega

/-- `modify_first` with a field update that does not touch the alive flag or
name preserves every `alive_named` count. -/
theorem alive_named_modify_first (pred : Player → Bool) (f : Player → Player)
    (hf : ∀ p, (f p).is_alive = p.is_alive ∧ (f p).name = p.name)
    (ps : List Player) (w : String) :
    alive_named (modify_first pred f ps) w = alive_named ps w := by
  induction ps with
  | nil => rfl
  | cons p ps ih =>
    by_cases hp : pred p = true
    · rw [modify_first, if_pos hp, alive_named_cons, alive_named_cons,
        (hf p).1, (hf p).2]
    · rw [modify_first, if_neg hp, alive_named_cons, alive_named_cons]
      omega

/-- `modify_first` with a field update that does not touch the alive flag
preserves the alive count. -/
theorem alive_count_modify_first (pred : Player → Bool) (f : Player → Player)
    (hf : ∀ p, (f p).is_alive = p.is_alive) (ps : List Player) :
    alive_count (modify_first pred f ps) = alive_count ps := by
  induction ps with
  | nil => rfl
  | cons p ps ih =>
    by_cases hp : pred p = true
    · rw [modify_first, if_pos hp, alive_count_cons, alive_count_cons, hf p]
    · rw [modify_first, if_neg hp, alive_count_cons, alive_count_cons]
      omega

/-- C3: the night resolution. With a victim protected by the Medic, nobody
is marked dead (the player collection is untouched) and the
successful-protection counter rises by exactly one. With an unprotected
victim, exactly that victim's alive flag is cleared — the victim's
alive-by-name count drops by one and every other name's count is unchanged
— and the metrics are untouched. With no victim nothing changes. -/
theorem night_resolution_spec (st : GameState) (victim prot : Option String) :
    (∀ v, victim = some v → prot = some v →
        (resolve_night st victim prot).players = st.players
        ∧ (resolve_night st victim prot).metrics.medic_successful_protections
            = st.metrics.medic_successful_protections + 1)
    ∧ (∀ v, victim = some v → prot ≠ some v →
        alive_named (resolve_night st victim prot).players v
            = alive_named st.players v - 1
        ∧ (∀ w, w ≠ v →
            alive_named (resolve_night st victim prot).players w
              = alive_named st.players w)
        ∧ (resolve_night st victim prot).metrics = st.metrics)
    ∧ (victim = none →
        (resolve_night st victim prot).players = st.players
        ∧ (resolve_night st victim prot).metrics = st.metrics) := by
  refine ⟨?_, ?_, ?_⟩
  · rintro v rfl rfl
    simp [resolve_night]
  · rintro v rfl hne
    match prot with
    | none =>
      exact ⟨alive_named_mark_dead_self st.players v,
        fun w hw => alive_named_mark_dead_other st.players v w hw, rfl⟩
    | some pr =>
      have hvp : ¬ v = pr := fun h => hne (by rw [h])
      simp only [resolve_night, if_neg hvp]
      exact ⟨alive_named_mark_dead_self st.players v,
        fun w hw => alive_named_mark_dead_other st.players v w hw, trivial⟩
  · rintro rfl
    match prot with
    | none => exact ⟨rfl, rfl⟩
    | some pr => exact ⟨rfl, rfl⟩

/-- State for exercising the night resolution: three alive players. -/
def night_demo : GameState :=
  { players := [{ name := "P1", role := "Werewolf" },
                { name := "P2", role := "Villager" },
                { name := "P3", role := "Medic" }] }

/-- C3 witness: with the Medic protecting the exact Werewolf target, nobody
dies and the protection counter increments by one. -/
theorem night_resolution_spec_witness :
    (resolve_night night_demo (some "P2") (some "P2")).players = night_demo.players
    ∧ (resolve_night night_demo (some "P2") (some "P2")).metrics.medic_successful_protections
        = night_demo.metrics.medic_successful_protections + 1 :=
  (night_resolution_spec night_demo (some "P2") (some "P2")).1 "P2" rfl rfl

/-- C7: every metrics ratio of `save_metrics` equals numerator/denominator
when the denominator is positive and 0 when it is 0 (seer accuracy, seer
reveal rate, voting accuracy, consensus rate, suspicion change rate,
vote-discussion alignment, statement variety rate, deception rate); the
computation is a total function, so no division-by-zero error can be
raised; in particular zero votes cast gives voting accuracy 0. -/
theorem save_metrics_ratios (m : Metrics) :
    (m.total_seer_investigations = 0 → (save_metrics m).seer_accuracy = 0)
    ∧ (0 < m.total_seer_investigations → (save_metrics m).seer_accuracy
        = (m.seer_correct_accusations : ℚ) / (m.total_seer_investigations : ℚ))
    ∧ (m.rounds_played = 0 → (save_metrics m).seer_reveal_rate = 0)
    ∧ (0 < m.rounds_played → (save_metrics m).seer_reveal_rate
        = (m.seer_reveals : ℚ) / (m.rounds_played : ℚ))
    ∧ (m.total_votes = 0 → (save_metrics m).voting_accuracy = 0)
    ∧ (0 < m.total_votes → (save_metrics m).voting_accuracy
        = (m.votes_against_werewolves : ℚ) / (m.total_votes : ℚ))
    ∧ (m.rounds_played = 0 → (save_metrics m).consensus_rate = 0)
    ∧ (0 < m.rounds_played → (save_metrics m).consensus_rate
        = m.village_consensus_rate / (m.rounds_played : ℚ))
    ∧ (m.total_discussion_statements = 0 → (save_metrics m).suspicion_change_rate = 0)
    ∧ (0 < m.total_discussion_statements → (save_metrics m).suspicion_change_rate
        = (m.suspicion_changes : ℚ) / (m.total_discussion_statements : ℚ))
    ∧ (m.total_votes = 0 → (save_metrics m).vote_discussion_alignment = 0)
    ∧ (0 < m.total_votes → (save_metrics m).vote_discussion_alignment
        = (m.vote_discussion_alignment : ℚ) / (m.total_votes : ℚ))
    ∧ (m.total_discussion_statements = 0 → (save_metrics m).statement_variety_rate = 0)
    ∧ (0 < m.total_discussion_statements → (save_metrics m).statement_variety_rate
        = (m.statement_variety : ℚ) / (m.total_discussion_statements : ℚ))
    ∧ (m.total_discussion_statements = 0 → (save_metrics m).deception_rate = 0)
    ∧ (0 < m.total_discussion_statements → (save_metrics m).deception_rate
        = (m.werewolf_deceptions : ℚ) / (m.total_discussion_statements : ℚ)) := by
  refine ⟨?_, ?_, ?_, ?_, ?_, ?_, ?_, ?_, ?_, ?_, ?_, ?_, ?_, ?_, ?_, ?_⟩ <;>
    intro h <;> simp [save_metrics, h]

/-- C7 witness: on the all-zero metrics record (a game with no votes, no
investigations, no statements), seer accuracy and voting accuracy are 0. -/
theorem save_metrics_ratios_witness :
    (save_metrics {}).seer_accuracy = 0 ∧ (save_metrics {}).voting_accuracy = 0 :=
  ⟨(save_metrics_ratios {}).1 rfl,
   (save_metrics_ratios {}).2.2.2.2.1 rfl⟩

/-- A left fold of `max` lands on the seed or on a list element. -/
theorem foldl_max_mem (a : Nat) (l : List Nat) : l.foldl max a ∈ a :: l := by
  induction l generalizing a with
  | nil => simp
  | cons b t ih =>
    simp only [List.foldl_cons]
    rcases List.mem_cons.mp (ih (max a b)) with h1 | h1
    · rcases max_choice a b with hm | hm
      · exact List.mem_cons.mpr (Or.inl (h1.trans hm))
      · rw [h1, hm]
        exact List.mem_cons.mpr (Or.inr (List.mem_cons_self _ _))
    · exact List.mem_cons.mpr (Or.inr (List.mem_cons.mpr (Or.inr h1)))

/-- The maximum vote count of a nonempty tally is attained by some entry. -/
theorem max_votes_attained (c : String × Nat) (rest : List (String × Nat)) :
    ∃ e ∈ c :: rest, e.2 = max_votes (c :: rest) := by
  have hstep : max_votes (c :: rest) = (rest.map (fun e => e.2)).foldl max c.2 := by
    simp [max_votes, List.foldl_cons, Nat.zero_max]
  have hmem := foldl_max_mem c.2 (rest.map (fun e => e.2))
  rw [← hstep] at hmem
  rcases List.mem_cons.mp hmem with h1 | h1
  · exact ⟨c, List.mem_cons_self _ _, h1.symm⟩
  · rcases List.mem_map.mp h1 with ⟨e, he, hev⟩
    exact ⟨e, List.mem_cons.mpr (Or.inr he), hev⟩

/-- A name is a tie candidate exactly when the tally holds it with the
maximum vote count. -/
theorem tie_candidates_iff (counts : List (String × Nat)) (n : String) :
    n ∈ tie_candidates counts
      ↔ ∃ c, (n, c) ∈ counts ∧ c = max_votes counts := by
  simp only [tie_candidates, List.mem_map, List.mem_filter, beq_iff_eq]
  constructor
  · rintro ⟨e, ⟨he, hev⟩, he1⟩
    refine ⟨e.2, ?_, hev⟩
    rw [← he1]
    simpa using he
  · rintro ⟨c, hc, hceq⟩
    exact ⟨(n, c), ⟨hc, hceq⟩, rfl⟩

/-- A nonempty tally has at least one tie candidate. -/
theorem tie_candidates_ne_nil (c : String × Nat) (rest : List (String × Nat)) :
    tie_candidates (c :: rest) ≠ [] := by
  obtain ⟨e, he, hev⟩ := max_votes_attained c rest
  have hmem : e.1 ∈ tie_candidates (c :: rest) := by
    apply (tie_candidates_iff _ _).mpr
    exact ⟨e.2, by simpa using he, hev⟩
  intro hnil
  rw [hnil] at hmem
  exact absurd hmem (List.not_mem_nil _)

/-- A nonempty tally always yields an eliminated name, whatever the draw. -/
theorem choose_eliminated_total (c : String × Nat) (rest : List (String × Nat))
    (k : Nat) :
    ∃ n, choose_eliminated (c :: rest) k = some n := by
  have htc := tie_candidates_ne_nil c rest
  have hlen : 0 < (tie_candidates (c :: rest)).length := List.length_pos.mpr htc
  have hk : k % (tie_candidates (c :: rest)).length
      < (tie_candidates (c :: rest)).length := Nat.mod_lt _ hlen
  exact ⟨_, by unfold choose_eliminated; rw [if_neg (by simp)]; exact List.get?_eq_get hk⟩

/-- The eliminated name is always drawn from the tie-candidate set. -/
theorem choose_eliminated_mem (counts : List (String × Nat)) (k : Nat)
    (n : String) (h : choose_eliminated counts k = some n) :
    n ∈ tie_candidates counts := by
  unfold choose_eliminated at h
  split at h
  · exact absurd h (by simp)
  · exact List.get?_mem h

/-- Every tie candidate is drawable: some draw index selects it. -/
theorem tie_candidate_reachable (counts : List (String × Nat)) (n : String)
    (h : n ∈ tie_candidates counts) :
    ∃ j, choose_eliminated counts j = some n := by
  have hcne : counts ≠ [] := by
    intro hc
    rw [hc] at h
    simp [tie_candidates, max_votes] at h
  obtain ⟨⟨j, hj⟩, hget⟩ := List.mem_iff_get.mp h
  refine ⟨j, ?_⟩
  unfold choose_eliminated
  rw [if_neg (by simp [hcne])]
  rw [Nat.mod_eq_of_lt hj, List.get?_eq_get hj, hget]

/-- If no alive player carries a name, that name's alive count is zero. -/
theorem alive_named_zero_of_find_none (ps : List Player) (n : String)
    (h : ps.find? (fun p => p.is_alive && p.name == n) = none) :
    alive_named ps n = 0 := by
  have hall := List.find?_eq_none.mp h
  simp only [alive_named, List.filter_eq_nil.mpr hall, List.length_nil]

/-- The tally is empty exactly when every recorded vote is "Pass"
(generalized over the fold accumulator). -/
theorem tally_foldl_eq_nil (votes : List String) :
    ∀ acc : List (String × Nat),
      votes.foldl (fun counts v => if v == "Pass" then counts else bump_vote counts v) acc = []
        ↔ (acc = [] ∧ votes.all (fun v => v == "Pass") = true) := by
  induction votes with
  | nil => intro acc; simp
  | cons v vs ih =>
    intro acc
    simp only [List.foldl_cons, List.all_cons, Bool.and_eq_true]
    by_cases hv : (v == "Pass") = true
    · rw [if_pos hv, ih acc]
      simp [hv]
    · rw [if_neg hv, ih (bump_vote acc v)]
      have hbump : bump_vote acc v ≠ [] := by
        unfold bump_vote
        split
        · intro hmap
          rename_i hany
          rw [List.map_eq_nil] at hmap
          rw [hmap] at hany
          simp at hany
        · simp
      simp [hbump, hv]

/-- C4: the voting engine.  (a) Any response that is not "Pass" and not a
valid alive-non-self name is recorded as "Pass", with no retry.  (b) If
every recorded vote is "Pass" the tally is empty and the day eliminates
nobody: the state is returned untouched.  (c) Otherwise some name is always
drawn; (d) the drawn name is a tie candidate, and (e) the tie-candidate set
is exactly the set of names attaining the maximum vote count; (f) every
tie candidate is drawn by some draw index (the draw `random.choice` is
uniform over exactly that set); (g) the drawn player is eliminated: their
alive-by-name count drops by one and nobody else's alive flag changes. -/
theorem voting_tally_spec (vote : String) (vt : List String)
    (votes : List (String × String)) (k : Nat) (st : GameState)
    (alive_names : List String) :
    (vote ≠ "Pass" → vt.contains vote = false → coerce_vote vote vt = "Pass")
    ∧ ((votes.map (fun e => e.2)).all (fun v => v == "Pass") = true →
        tally_and_eliminate st alive_names votes k = st)
    ∧ ((votes.map (fun e => e.2)).all (fun v => v == "Pass") = false →
        ∃ n, choose_eliminated (tally_votes (votes.map (fun e => e.2))) k = some n)
    ∧ (∀ n, choose_eliminated (tally_votes (votes.map (fun e => e.2))) k = some n →
        n ∈ tie_candidates (tally_votes (votes.map (fun e => e.2))))
    ∧ (∀ n, n ∈ tie_candidates (tally_votes (votes.map (fun e => e.2)))
        ↔ ∃ c, (n, c) ∈ tally_votes (votes.map (fun e => e.2))
            ∧ c = max_votes (tally_votes (votes.map (fun e => e.2))))
    ∧ (∀ n, n ∈ tie_candidates (tally_votes (votes.map (fun e => e.2))) →
        ∃ j, choose_eliminated (tally_votes (votes.map (fun e => e.2))) j = some n)
    ∧ (∀ n, choose_eliminated (tally_votes (votes.map (fun e => e.2))) k = some n →
        alive_named (tally_and_eliminate st alive_names votes k).players n
            = alive_named st.players n - 1
        ∧ (∀ w, w ≠ n →
            alive_named (tally_and_eliminate st alive_names votes k).players w
              = alive_named st.players w)) := by
  refine ⟨?_, ?_, ?_, ?_, ?_, ?_, ?_⟩
  · intro hp hc
    unfold coerce_vote
    rw [if_pos]
    rw [hc]
    simp
  · intro hall
    have hnil : tally_votes (votes.map (fun e => e.2)) = [] := by
      unfold tally_votes
      exact (tally_foldl_eq_nil _ []).mpr ⟨rfl, hall⟩
    unfold tally_and_eliminate
    rw [hnil]
    rfl
  · intro hnall
    have hnnil : tally_votes (votes.map (fun e => e.2)) ≠ [] := by
      intro hc
      unfold tally_votes at hc
      have hh := (tally_foldl_eq_nil (votes.map (fun e => e.2)) []).mp hc
      rw [hh.2] at hnall
      simp at hnall
    cases htv : tally_votes (votes.map (fun e => e.2)) with
    | nil => exact absurd htv hnnil
    | cons c rest => exact choose_eliminated_total c rest k
  · exact fun n => choose_eliminated_mem _ k n
  · exact fun n => tie_candidates_iff _ n
  · exact fun n => tie_candidate_reachable _ n
  · intro n hn
    have hnnil : ¬ (tally_votes (votes.map (fun e => e.2))).isEmpty = true := by
      intro hc
      unfold choose_eliminated at hn
      rw [if_pos hc] at hn
      exact absurd hn (by simp)
    have hget : (tie_candidates (tally_votes (votes.map (fun e => e.2)))).get?
        (k % (tie_candidates (tally_votes (votes.map (fun e => e.2)))).length)
          = some n := by
      unfold choose_eliminated at hn
      rwa [if_neg hnnil] at hn
    unfold tally_and_eliminate
    rw [if_neg hnnil, hget]
    cases hfind : st.players.find? (fun p => p.is_alive && p.name == n) with
    | none =>
      have hzero := alive_named_zero_of_find_none st.players n hfind
      simp only [hfind, hzero]
      exact ⟨trivial, fun w _ => trivial⟩
    | some e =>
      simp only [hfind]
      exact ⟨alive_named_mark_dead_self st.players n, fun w hw =>
        alive_named_mark_dead_other st.players n w hw⟩

/-- C4 witness: the invalid response "Charlie" from a voter whose valid
targets are Alice and Bruno is recorded as "Pass". -/
theorem voting_tally_spec_witness :
    coerce_vote "Charlie" ["Alice", "Bruno"] = "Pass" :=
  (voting_tally_spec "Charlie" ["Alice", "Bruno"] [] 0
    { players := [] } []).1 (by decide) (by decide)

/-- A Seer who has already investigated Aga. -/
def seerC9 : Player :=
  { name := "Seer1", role := "Seer",
    knowledge := [("Aga", BVal.str "Not a Werewolf")] }

/-- An already-investigated alive villager. -/
def agaC9 : Player := { name := "Aga", role := "Villager" }

/-- A not-yet-investigated alive villager. -/
def benC9 : Player := { name := "Ben", role := "Villager" }

/-- The alive set for the Seer-selection counterexample. -/
def aliveC9 : List Player := [seerC9, agaC9, benC9]

/-- C9 counterexample: the candidate validation does NOT exclude
already-investigated players.  With Ben alive and uninvestigated, an oracle
reply naming the already-investigated Aga is accepted as the investigation
target — the claim that the chosen target is never a previously
investigated player unless all other alive players have been investigated
is false on the code (the `valid_targets` check at line 717 only excludes
the Seer; the already-investigated filter applies only to the fallback). -/
theorem seer_revisits_investigated_target :
    seer_pick_target aliveC9 seerC9 aliveC9 "Aga" 0 = some agaC9
    ∧ "Aga" ∈ seerC9.knowledge.map (fun e => e.1)
    ∧ benC9 ∈ aliveC9
    ∧ benC9.name ∉ seerC9.knowledge.map (fun e => e.1) := by
  refine ⟨rfl, by simp [seerC9], by simp [aliveC9], by simp [benC9, seerC9]⟩

/-- Every fallback target is a valid (alive, non-Seer) target, and when
uninvestigated targets remain the fallback picks one of them. -/
theorem seer_fallback_spec (all_players : List Player) (seer : Player)
    (alive_players : List Player) (k : Nat) (t : Player)
    (h : seer_fallback all_players seer alive_players k = some t) :
    t ∈ seer_valid_targets seer alive_players
    ∧ (seer_uninvestigated seer alive_players ≠ [] →
        t.name ∉ seer.knowledge.map (fun e => e.1)) := by
  unfold seer_fallback at h
  split at h
  · constructor
    · exact List.mem_of_find?_eq_some h
    · intro _
      have hpred := List.find?_some h
      have hmem : t.name ∈ seer_uninvestigated seer alive_players := by
        simpa using hpred
      simp only [seer_uninvestigated, List.mem_map] at hmem
      obtain ⟨p, hp, hpn⟩ := hmem
      have hpf := (List.mem_filter.mp hp).2
      rw [← hpn]
      simpa using hpf
  · rename_i hninv
    have hemp : seer_uninvestigated seer alive_players = [] :=
      List.isEmpty_iff.mp (by simpa using hninv)
    split at h
    · exact ⟨List.mem_of_find?_eq_some h, fun hne => absurd hemp hne⟩
    · exact ⟨List.get?_mem h, fun hne => absurd hemp hne⟩

/-- C9 amended: the chosen investigation target, when one exists, is always
an alive player other than the Seer; and when the oracle reply names no
valid target, the fallback prefers an uninvestigated player whenever one
remains.  (A valid oracle reply naming an already-investigated player is
accepted — the uninvestigated preference applies only to the fallback.) -/
theorem seer_target_never_self (all_players : List Player) (seer : Player)
    (alive_players : List Player) (oracle : String) (k : Nat) (t : Player)
    (h : seer_pick_target all_players seer alive_players oracle k = some t) :
    t ∈ alive_players
    ∧ t.name ≠ seer.name
    ∧ ((∀ p ∈ seer_valid_targets seer alive_players, p.name ≠ oracle) →
        seer_uninvestigated seer alive_players ≠ [] →
        t.name ∉ seer.knowledge.map (fun e => e.1)) := by
  have hvalid : t ∈ seer_valid_targets seer alive_players
      → t ∈ alive_players ∧ t.name ≠ seer.name := by
    intro hm
    have hf := List.mem_filter.mp hm
    refine ⟨hf.1, ?_⟩
    simpa using hf.2
  unfold seer_pick_target at h
  split at h
  · exact absurd h (by simp)
  · split at h
    · rename_i t' hfind
      have ht : t' = t := by injection h
      subst ht
      have hmem := List.mem_of_find?_eq_some hfind
      have hpred := List.find?_some hfind
      refine ⟨(hvalid hmem).1, (hvalid hmem).2, ?_⟩
      intro hno _
      exact absurd (by simpa using hpred) (hno t' hmem)
    · have hfb := seer_fallback_spec all_players seer alive_players k t h
      exact ⟨(hvalid hfb.1).1, (hvalid hfb.1).2, fun _ => hfb.2⟩

/-- C9 witness: with the invalid oracle reply "garbage" and Ben still
uninvestigated, the chosen target (Ben, via the fallback) has not been
investigated before. -/
theorem seer_target_never_self_witness :
    benC9.name ∉ seerC9.knowledge.map (fun e => e.1) :=
  (seer_target_never_self aliveC9 seerC9 aliveC9 "garbage" 0 benC9 rfl).2.2
    (by decide) (by decide)

/-- `roster` over a cons cell. -/
theorem roster_cons (p : Player) (ps : List Player) :
    roster (p :: ps) = (p.name, p.role) :: roster ps := rfl

/-- `modify_first` with a name/role-preserving update preserves the roster. -/
theorem roster_modify_first (pred : Player → Bool) (f : Player → Player)
    (hf : ∀ p, (f p).name = p.name ∧ (f p).role = p.role) (ps : List Player) :
    roster (modify_first pred f ps) = roster ps := by
  induction ps with
  | nil => rfl
  | cons p ps ih =>
    by_cases hp : pred p = true
    · rw [modify_first, if_pos hp, roster_cons, roster_cons, (hf p).1, (hf p).2]
    · rw [modify_first, if_neg hp, roster_cons, roster_cons, ih]

/-- A pointwise name/role-preserving map preserves the roster. -/
theorem roster_map (f : Player → Player)
    (hf : ∀ p, (f p).name = p.name ∧ (f p).role = p.role) (ps : List Player) :
    roster (ps.map f) = roster ps := by
  induction ps with
  | nil => rfl
  | cons p ps ih =>
    rw [List.map_cons, roster_cons, roster_cons, (hf p).1, (hf p).2, ih]

/-- Marking a player dead never changes names, roles, order or length. -/
theorem roster_mark_dead_first (ps : List Player) (v : String) :
    roster (mark_dead_first ps v) = roster ps := by
  unfold mark_dead_first
  apply roster_modify_first
  intro p
  exact ⟨rfl, rfl⟩

/-- A pointwise alive-flag-preserving map preserves the alive count. -/
theorem alive_count_map (f : Player → Player)
    (hf : ∀ p, (f p).is_alive = p.is_alive) (ps : List Player) :
    alive_count (ps.map f) = alive_count ps := by
  induction ps with
  | nil => rfl
  | cons p ps ih =>
    rw [List.map_cons, alive_count_cons, alive_count_cons, hf p, ih]

/-- The suspicion update never touches name, role or alive flag. -/
theorem update_suspicion_core (r d : Nat) (pl : Player) (s n : String) :
    ((update_suspicion r d pl s n).1).name = pl.name
    ∧ ((update_suspicion r d pl s n).1).role = pl.role
    ∧ ((update_suspicion r d pl s n).1).is_alive = pl.is_alive := by
  simp only [update_suspicion]
  split
  · exact ⟨rfl, rfl, rfl⟩
  · exact ⟨rfl, rfl, rfl⟩

/-- The suspicion fold never touches name, role or alive flag. -/
theorem suspicion_fold_core (r d : Nat) (s : String) (targets : List String) :
    ∀ start : Player × Nat,
      ((suspicion_fold r d s targets start).1).name = start.1.name
      ∧ ((suspicion_fold r d s targets start).1).role = start.1.role
      ∧ ((suspicion_fold r d s targets start).1).is_alive = start.1.is_alive := by
  induction targets with
  | nil => exact fun _ => ⟨rfl, rfl, rfl⟩
  | cons t ts ih =>
    intro start
    simp only [suspicion_fold, List.foldl_cons]
    have h1 := update_suspicion_core r d start.1 s t
    have h2 := ih ((update_suspicion r d start.1 s t).1,
      start.2 + (if (update_suspicion r d start.1 s t).2 then 1 else 0))
    simp only [suspicion_fold] at h2
    exact ⟨h2.1.trans h1.1, h2.2.1.trans h1.2.1, h2.2.2.trans h1.2.2⟩

/-- Per-speaker statement bookkeeping never touches name, role or alive
flag. -/
theorem speak_update_core (r d : Nat) (an : List String) (s : String)
    (p : Player) :
    ((speak_update r d an s p).1).name = p.name
    ∧ ((speak_update r d an s p).1).role = p.role
    ∧ ((speak_update r d an s p).1).is_alive = p.is_alive := by
  simp only [speak_update]
  exact ⟨(suspicion_fold_core r d s _ _).1, (suspicion_fold_core r d s _ _).2.1,
    (suspicion_fold_core r d s _ _).2.2⟩

/-- Statement processing preserves roster and alive count. -/
theorem process_statement_players (d : Nat) (an : List String) (sn s : String)
    (st : GameState) :
    roster (process_statement d an sn s st).players = roster st.players
    ∧ alive_count (process_statement d an sn s st).players
        = alive_count st.players := by
  unfold process_statement
  cases hfind : st.players.find? (fun p => p.is_alive && p.name == sn) with
  | none => exact ⟨rfl, rfl⟩
  | some sp =>
    simp only [hfind]
    exact ⟨roster_modify_first _ _
        (fun p => ⟨(speak_update_core st.round d an s p).1,
          (speak_update_core st.round d an s p).2.1⟩) st.players,
      alive_count_modify_first _ _
        (fun p => (speak_update_core st.round d an s p).2.2) st.players⟩

/-- An invariant preserved by every fold step is preserved by the fold. -/
theorem foldl_preserve {α β : Type} (step : β → α → β) (inv : β → Prop)
    (hstep : ∀ b x, inv b → inv (step b x)) :
    ∀ (l : List α) (b : β), inv b → inv (l.foldl step b) := by
  intro l
  induction l with
  | nil => exact fun b hb => hb
  | cons x xs ih =>
    intro b hb
    simp only [List.foldl_cons]
    exact ih (step b x) (hstep b x hb)

/-- A discussion round preserves roster and alive count. -/
theorem discussion_round_players (d : Nat) (an : List String)
    (speeches : List (String × String)) (st : GameState) :
    roster (discussion_round_run d an speeches st).players = roster st.players
    ∧ alive_count (discussion_round_run d an speeches st).players
        = alive_count st.players := by
  unfold discussion_round_run
  exact foldl_preserve _
    (fun s => roster s.players = roster st.players
      ∧ alive_count s.players = alive_count st.players)
    (fun b x hb => ⟨(process_statement_players d an x.1 x.2 b).1.trans hb.1,
      (process_statement_players d an x.1 x.2 b).2.trans hb.2⟩)
    speeches st ⟨rfl, rfl⟩

/-- All discussion rounds preserve roster and alive count. -/
theorem day_discussions_players (an : List String)
    (speeches : List (List (String × String))) (st : GameState) :
    roster (day_discussions an speeches st).players = roster st.players
    ∧ alive_count (day_discussions an speeches st).players
        = alive_count st.players := by
  unfold day_discussions
  exact foldl_preserve _
    (fun s => roster s.players = roster st.players
      ∧ alive_count s.players = alive_count st.players)
    (fun b x hb => ⟨(discussion_round_players (x.1 + 1) an x.2 b).1.trans hb.1,
      (discussion_round_players (x.1 + 1) an x.2 b).2.trans hb.2⟩)
    speeches.enum st ⟨rfl, rfl⟩

/-- Casting one vote preserves roster and alive count. -/
theorem cast_vote_players (an : List String) (vn r : String)
    (acc : GameState × List (String × String)) :
    roster (cast_vote an vn r acc).1.players = roster acc.1.players
    ∧ alive_count (cast_vote an vn r acc).1.players
        = alive_count acc.1.players := by
  unfold cast_vote
  split
  · exact ⟨rfl, rfl⟩
  · constructor
    · dsimp only
      apply Eq.trans
      · apply roster_modify_first
        intro p
        exact ⟨rfl, rfl⟩
      · apply roster_modify_first
        intro p
        exact ⟨rfl, rfl⟩
    · dsimp only
      apply Eq.trans
      · apply alive_count_modify_first
        intro p
        rfl
      · apply alive_count_modify_first
        intro p
        rfl

/-- The voting loop preserves roster and alive count. -/
theorem day_voting_players (an : List String)
    (vote_order : List (String × String)) (st : GameState) :
    roster (day_voting an vote_order st).1.players = roster st.players
    ∧ alive_count (day_voting an vote_order st).1.players
        = alive_count st.players := by
  unfold day_voting
  exact foldl_preserve _
    (fun b => roster b.1.players = roster st.players
      ∧ alive_count b.1.players = alive_count st.players)
    (fun b x hb => ⟨(cast_vote_players an x.1 x.2 b).1.trans hb.1,
      (cast_vote_players an x.1 x.2 b).2.trans hb.2⟩)
    vote_order (st, []) ⟨rfl, rfl⟩

/-- Tally and elimination preserve the roster and remove at most one player
from the alive set. -/
theorem tally_and_eliminate_players (st : GameState) (an : List String)
    (votes : List (String × String)) (k : Nat) :
    roster (tally_and_eliminate st an votes k).players = roster st.players
    ∧ alive_count (tally_and_eliminate st an votes k).players
        ≤ alive_count st.players
    ∧ alive_count st.players
        ≤ alive_count (tally_and_eliminate st an votes k).players + 1 := by
  unfold tally_and_eliminate
  split
  · exact ⟨rfl, le_refl _, Nat.le_succ _⟩
  · split
    · exact ⟨rfl, le_refl _, Nat.le_succ _⟩
    · split
      · exact ⟨rfl, le_refl _, Nat.le_succ _⟩
      · exact ⟨roster_mark_dead_first _ _, (alive_count_mark_dead _ _).1,
          (alive_count_mark_dead _ _).2⟩

/-- The night resolution preserves the roster and removes at most one
player from the alive set. -/
theorem resolve_night_players (st : GameState) (victim prot : Option String) :
    roster (resolve_night st victim prot).players = roster st.players
    ∧ alive_count (resolve_night st victim prot).players
        ≤ alive_count st.players
    ∧ alive_count st.players
        ≤ alive_count (resolve_night st victim prot).players + 1 := by
  cases victim with
  | none =>
    cases prot with
    | none => exact ⟨rfl, le_refl _, Nat.le_succ _⟩
    | some pr => exact ⟨rfl, le_refl _, Nat.le_succ _⟩
  | some v =>
    cases prot with
    | none =>
      exact ⟨roster_mark_dead_first _ _, (alive_count_mark_dead _ _).1,
        (alive_count_mark_dead _ _).2⟩
    | some pr =>
      by_cases h : v = pr
      · have hres : (resolve_night st (some v) (some pr)).players = st.players := by
          simp only [resolve_night, if_pos h]
        rw [hres]
        exact ⟨rfl, le_refl _, Nat.le_succ _⟩
      · have hres : (resolve_night st (some v) (some pr)).players
            = mark_dead_first st.players v := by
          simp only [resolve_night, if_neg h]
        rw [hres]
        exact ⟨roster_mark_dead_first _ _, (alive_count_mark_dead _ _).1,
          (alive_count_mark_dead _ _).2⟩

/-- The activity refresh preserves roster and alive count. -/
theorem update_activity_players (activity : String → ℚ) (ps : List Player) :
    roster (update_activity activity ps) = roster ps
    ∧ alive_count (update_activity activity ps) = alive_count ps := by
  unfold update_activity
  constructor
  · refine roster_map _ (fun p => ?_) ps
    by_cases h : p.is_alive = true <;> simp [h]
  · refine alive_count_map _ (fun p => ?_) ps
    by_cases h : p.is_alive = true <;> simp [h]

/-- The Seer investigation step preserves roster and alive count. -/
theorem record_seer_investigation_players (st : GameState) (o : String)
    (k : Nat) :
    roster (record_seer_investigation st o k).players = roster st.players
    ∧ alive_count (record_seer_investigation st o k).players
        = alive_count st.players := by
  unfold record_seer_investigation
  split
  · exact ⟨rfl, rfl⟩
  · split
    · exact ⟨rfl, rfl⟩
    · constructor
      · apply roster_modify_first
        intro p
        exact ⟨rfl, rfl⟩
      · apply alive_count_modify_first
        intro p
        rfl

/-- The Medic protection step preserves roster and alive count. -/
theorem record_medic_protection_players (st : GameState)
    (prot : Option String) :
    roster (record_medic_protection st prot).players = roster st.players
    ∧ alive_count (record_medic_protection st prot).players
        = alive_count st.players := by
  unfold record_medic_protection
  split
  · exact ⟨rfl, rfl⟩
  · split
    · exact ⟨rfl, rfl⟩
    · constructor
      · apply roster_modify_first
        intro p
        exact ⟨rfl, rfl⟩
      · apply alive_count_modify_first
        intro p
        rfl

/-- The whole night phase preserves the roster and removes at most one
player from the alive set. -/
theorem night_phase_players (st : GameState) (activity : String → ℚ)
    (victim prot : Option String) (o : String) (k : Nat) :
    roster (night_phase st activity victim prot o k).players = roster st.players
    ∧ alive_count (night_phase st activity victim prot o k).players
        ≤ alive_count st.players
    ∧ alive_count st.players
        ≤ alive_count (night_phase st activity victim prot o k).players + 1 := by
  unfold night_phase
  have h1 := update_activity_players activity st.players
  have h2 := record_seer_investigation_players
    { st with
        round := st.round + 1,
        players := update_activity activity st.players,
        metrics := { st.metrics with rounds_played := st.round + 1 } } o k
  have h3 := record_medic_protection_players
    (record_seer_investigation
      { st with
          round := st.round + 1,
          players := update_activity activity st.players,
          metrics := { st.metrics with rounds_played := st.round + 1 } } o k)
    prot
  have h4 := resolve_night_players
    (record_medic_protection
      (record_seer_investigation
        { st with
            round := st.round + 1,
            players := update_activity activity st.players,
            metrics := { st.metrics with rounds_played := st.round + 1 } } o k)
      prot)
    victim prot
  have hros : roster (record_medic_protection
      (record_seer_investigation
        { st with
            round := st.round + 1,
            players := update_activity activity st.players,
            metrics := { st.metrics with rounds_played := st.round + 1 } } o k)
      prot).players = roster st.players :=
    (h3.1.trans h2.1).trans h1.1
  have hal : alive_count (record_medic_protection
      (record_seer_investigation
        { st with
            round := st.round + 1,
            players := update_activity activity st.players,
            metrics := { st.metrics with rounds_played := st.round + 1 } } o k)
      prot).players = alive_count st.players :=
    (h3.2.trans h2.2).trans h1.2
  refine ⟨h4.1.trans hros, ?_, ?_⟩
  · calc alive_count (resolve_night _ victim prot).players
        ≤ _ := h4.2.1
      _ = alive_count st.players := hal
  · calc alive_count st.players = _ := hal.symm
      _ ≤ _ := h4.2.2

/-- The whole day phase preserves the roster and removes at most one player
from the alive set. -/
theorem day_phase_players (st : GameState)
    (speeches : List (List (String × String)))
    (vote_order : List (String × String)) (k : Nat) :
    roster (day_phase st speeches vote_order k).players = roster st.players
    ∧ alive_count (day_phase st speeches vote_order k).players
        ≤ alive_count st.players
    ∧ alive_count st.players
        ≤ alive_count (day_phase st speeches vote_order k).players + 1 := by
  unfold day_phase
  have hd := day_discussions_players
    ((get_alive_players st.players).map (fun p => p.name)) speeches st
  have hv := day_voting_players
    ((get_alive_players st.players).map (fun p => p.name)) vote_order
    (day_discussions ((get_alive_players st.players).map (fun p => p.name))
      speeches st)
  have ht := tally_and_eliminate_players
    (day_voting ((get_alive_players st.players).map (fun p => p.name)) vote_order
      (day_discussions ((get_alive_players st.players).map (fun p => p.name))
        speeches st)).1
    ((get_alive_players st.players).map (fun p => p.name))
    (day_voting ((get_alive_players st.players).map (fun p => p.name)) vote_order
      (day_discussions ((get_alive_players st.players).map (fun p => p.name))
        speeches st)).2
    k
  refine ⟨ht.1.trans ((hv.1.trans hd.1)), ?_, ?_⟩
  · calc alive_count (tally_and_eliminate _ _ _ _).players
        ≤ _ := ht.2.1
      _ = alive_count st.players := hv.2.trans hd.2
  · calc alive_count st.players = _ := (hv.2.trans hd.2).symm
      _ ≤ _ := ht.2.2

/-- Any phase preserves the roster and removes at most one player. -/
theorem apply_phase_players (a : PhaseAction) (st : GameState) :
    roster (apply_phase a st).players = roster st.players
    ∧ alive_count (apply_phase a st).players ≤ alive_count st.players
    ∧ alive_count st.players ≤ alive_count (apply_phase a st).players + 1 := by
  cases a with
  | night activity victim prot o k => exact night_phase_players st activity victim prot o k
  | day sp vo k => exact day_phase_players st sp vo k

/-- Alive Werewolves and alive non-Werewolves partition the alive players. -/
theorem werewolves_villagers_partition (ps : List Player) :
    (get_werewolves ps).length + (get_villagers ps).length = alive_count ps := by
  induction ps with
  | nil => rfl
  | cons p ps ih =>
    have hbne : (p.role != "Werewolf") = !(p.role == "Werewolf") := rfl
    cases hr : (p.role == "Werewolf") <;> cases ha : p.is_alive <;>
      simp [get_werewolves, get_villagers, get_alive_players, alive_count,
        List.filter_cons, hr, ha, hbne] at * <;>
      omega

/-- Alive and dead players partition the collection. -/
theorem alive_dead_partition (ps : List Player) :
    alive_count ps + dead_count ps = ps.length := by
  induction ps with
  | nil => rfl
  | cons p ps ih =>
    by_cases ha : p.is_alive = true <;>
      simp [alive_count, dead_count, get_alive_players, List.filter_cons, ha]
        at * <;>
      omega

/-- C10: every phase operation leaves the authoritative ordered player
collection unchanged in length, order, names and role assignments: the
(name, role) projection of the master list — identity and role per
position — is invariant under any night or day phase (for every oracle
reply, speaking/voting order, and random draw), and so is its length.
Speaking-order shuffles and candidate filters act only on freshly built
lists (`get_alive_players` filters into a new list); phases modify only
per-player mutable fields and game-level state. -/
theorem phase_roster_frame (st : GameState) (a : PhaseAction) :
    roster (apply_phase a st).players = roster st.players
    ∧ (apply_phase a st).players.length = st.players.length := by
  refine ⟨(apply_phase_players a st).1, ?_⟩
  have h := congrArg List.length (apply_phase_players a st).1
  simpa [roster] using h

/-- C5: across any sequence of phases from any start state, (a) the next
phase never increases the alive count; (b) it lowers it by at most one —
at most one elimination per night phase and per day phase; (c) the alive
count after the whole run never exceeds the initial alive count
(non-increasing over the game); (d) after every phase, alive Werewolves
plus alive non-Werewolves equals the initial total player count minus the
number of dead (eliminated) players. -/
theorem population_invariants (st0 : GameState) (acts : List PhaseAction)
    (a : PhaseAction) :
    alive_count (apply_phase a (run_phases acts st0)).players
        ≤ alive_count (run_phases acts st0).players
    ∧ alive_count (run_phases acts st0).players
        ≤ alive_count (apply_phase a (run_phases acts st0)).players + 1
    ∧ alive_count (run_phases acts st0).players ≤ alive_count st0.players
    ∧ (get_werewolves (run_phases acts st0).players).length
        + (get_villagers (run_phases acts st0).players).length
        = st0.players.length - dead_count (run_phases acts st0).players := by
  have hrun : roster (run_phases acts st0).players = roster st0.players
      ∧ alive_count (run_phases acts st0).players ≤ alive_count st0.players := by
    unfold run_phases
    exact foldl_preserve _
      (fun s => roster s.players = roster st0.players
        ∧ alive_count s.players ≤ alive_count st0.players)
      (fun b x hb => ⟨(apply_phase_players x b).1.trans hb.1,
        le_trans (apply_phase_players x b).2.1 hb.2⟩)
      acts st0 ⟨rfl, le_refl _⟩
  refine ⟨(apply_phase_players a _).2.1, (apply_phase_players a _).2.2,
    hrun.2, ?_⟩
  have hlen : (run_phases acts st0).players.length = st0.players.length := by
    have h := congrArg List.length hrun.1
    simpa [roster] using h
  have hp := alive_dead_partition (run_phases acts st0).players
  rw [werewolves_villagers_partition, ← hlen]
  omega

end WerewolfAI
